import Mathlib

/-!
Verification development for the crazyeyes pupil detection-and-tracking engine.

The JavaScript sources are shallowly embedded over the rational numbers:
every JS numeric value is modelled as a `ℚ` and every numeric literal of the
code is written as an exact rational (0.4 becomes 4/10 and so on).  Square
roots (Math.sqrt) and Math.PI do not exist in `ℚ`; wherever the code uses
them the embedding is parametrised by an arbitrary function `sqrtFn : ℚ → ℚ`
and/or a constant `pi : ℚ`, and the theorems are proved for every choice of
these parameters, which only makes the statements stronger.

Embedded code:
  * class KalmanFilter        (src/src/utils/KalmanFilter.js)
  * class SimpleKalmanFilter  (src/src/hooks/usePupilDetection.js, lines 16-42)
  * class AdvancedKalmanFilter, detectPupil, analyzeEyeAdvanced,
    selectBestCandidate, calculateStability, advancedThresholdDetection
                              (src/unnamed/part_001)
  * the contour-scoring loop of detectPupilByAdaptiveThreshold
                              (src/src/hooks/usePupilDetection.js, lines 188-257)
  * the filter reset performed by stopCamera (src/src/App.jsx, lines 854-861)
-/

namespace CrazyEyes

/-- State of a one-dimensional Kalman-style filter.  Mirrors the fields
`Q`, `R`, `x`, `P`, `initialized` shared by class `KalmanFilter`
(src/src/utils/KalmanFilter.js) and class `SimpleKalmanFilter`
(src/src/hooks/usePupilDetection.js).  The JS field `initialized` is named
`isInit` here. -/
structure KFState where
  Q : ℚ
  R : ℚ
  x : ℚ
  P : ℚ
  isInit : Bool
deriving DecidableEq, Repr

namespace KalmanFilter

/-- Constructor `new KalmanFilter(Q, R)` of src/src/utils/KalmanFilter.js:
`x = 0`, `P = 1`, `initialized = false`. -/
def new (Q R : ℚ) : KFState :=
  { Q := Q, R := R, x := 0, P := 1, isInit := false }

/-- Method `init(value)` of src/src/utils/KalmanFilter.js:
`x = value; P = 1; initialized = true`. -/
def init (s : KFState) (value : ℚ) : KFState :=
  { s with x := value, P := 1, isInit := true }

/-- Method `update(measurement)` of src/src/utils/KalmanFilter.js.  If the filter is
not initialized it first runs `init(measurement)`; it then always executes
`P += Q; K = P / (P + R); x += K * (measurement - x); P *= (1 - K)` and
returns the new `x`.  The returned pair is (returned value, new state). -/
def update (s : KFState) (m : ℚ) : ℚ × KFState :=
  let s0 := if s.isInit = false then init s m else s
  let P1 := s0.P + s0.Q
  let K := P1 / (P1 + s0.R)
  let x1 := s0.x + K * (m - s0.x)
  let P2 := P1 * (1 - K)
  (x1, { s0 with x := x1, P := P2 })

end KalmanFilter

namespace SimpleKalmanFilter

/-- Constructor `new SimpleKalmanFilter(processNoise, measurementNoise)` of
src/src/hooks/usePupilDetection.js, lines 17-23: `x = 0`, `P = 1`,
`initialized = false`. -/
def new (Q R : ℚ) : KFState :=
  { Q := Q, R := R, x := 0, P := 1, isInit := false }

/-- Method `update(measurement)` of src/src/hooks/usePupilDetection.js, lines 25-41.
On the first measurement it sets `x = measurement`, marks the filter
initialized and returns `x` without touching `P`; afterwards it runs the
predict/update recurrence and returns the new `x`. -/
def update (s : KFState) (m : ℚ) : ℚ × KFState :=
  if s.isInit = false then
    (m, { s with x := m, isInit := true })
  else
    let P1 := s.P + s.Q
    let K := P1 / (P1 + s.R)
    let x1 := s.x + K * (m - s.x)
    let P2 := P1 * (1 - K)
    (x1, { s with x := x1, P := P2 })

end SimpleKalmanFilter

/-- The temporal-filter recurrence exactly as the spec words it (§4.4):
predict `errorCovariance += Q`; gain `K = errorCovariance / (errorCovariance
+ R)`; `estimate += K · (measurement − estimate)`;
`errorCovariance *= (1 − K)`.  Returns (new estimate, new errorCovariance).
This definition follows the spec text and is compared with the code. -/
def specFilterStep (Q R estimate errorCovariance m : ℚ) : ℚ × ℚ :=
  let P1 := errorCovariance + Q
  let K := P1 / (P1 + R)
  (estimate + K * (m - estimate), P1 * (1 - K))

/-- Run `KalmanFilter.update` over a list of measurements starting from a
freshly constructed filter. -/
def runKalman (Q R : ℚ) (ms : List ℚ) : KFState :=
  ms.foldl (fun s m => (KalmanFilter.update s m).2) (KalmanFilter.new Q R)

/-- Run `SimpleKalmanFilter.update` over a list of measurements starting
from a freshly constructed filter. -/
def runSimple (Q R : ℚ) (ms : List ℚ) : KFState :=
  ms.foldl (fun s m => (SimpleKalmanFilter.update s m).2) (SimpleKalmanFilter.new Q R)

/-- The Kalman gain that the next call to `update` will compute at state `s`,
after the predict step `P += Q`: `K = (P + Q) / ((P + Q) + R)`. -/
def kalmanGain (s : KFState) : ℚ :=
  (s.P + s.Q) / ((s.P + s.Q) + s.R)

/-- Iterate `KalmanFilter.update` on one constant measurement `m`. -/
def kfIterate (s : KFState) (m : ℚ) : ℕ → KFState
  | 0 => s
  | n + 1 => (KalmanFilter.update (kfIterate s m n) m).2

/-- Trajectory of a `KalmanFilter` channel that is already initialized at
estimate `x0` with errorCovariance `P0`, fed the constant measurement `M`. -/
def kfTraj (Q R x0 P0 M : ℚ) (n : ℕ) : KFState :=
  kfIterate ⟨Q, R, x0, P0, true⟩ M n

/-- The covariance recurrence as a function of the previous covariance. -/
def covNext (Q R P : ℚ) : ℚ :=
  (P + Q) * (1 - (P + Q) / ((P + Q) + R))

/-- Method tags of the candidate generators.  The first four are the
methods of src/unnamed/part_001; the last four those of
src/src/hooks/usePupilDetection.js. -/
inductive Method where
  | starburst
  | threshold
  | hough
  | gradient
  | adaptive
  | otsu
  | minval
  | contrast
deriving DecidableEq, Repr

/-- A pupil candidate as produced by the generators of src/unnamed/part_001
(region-relative center `cx, cy`, `diameter`, `confidence`, `circularity`)
together with the method tag attached by `analyzeEyeAdvanced`. -/
structure Candidate where
  cx : ℚ
  cy : ℚ
  diameter : ℚ
  confidence : ℚ
  circularity : ℚ
  method : Method
deriving DecidableEq, Repr

/-- Candidate score of `selectBestCandidate` (src/unnamed/part_001,
lines 604-624): `confidence * 0.4 + circularity * 0.3 + sizeScore * 0.2 +
methodBonus`, where `sizeScore` is 1 for `10 < diameter < 60` and 0.5
otherwise, and `methodBonus` is 0.1 for the starburst and hough methods. -/
def scoreCandidate (c : Candidate) : ℚ :=
  let sizeScore : ℚ := if 10 < c.diameter ∧ c.diameter < 60 then 1 else 5/10
  let methodBonus : ℚ :=
    if c.method = Method.starburst then 1/10
    else if c.method = Method.hough then 1/10
    else 0
  c.confidence * (4/10) + c.circularity * (3/10) + sizeScore * (2/10) + methodBonus

/-- The `reduce((best, current) => current.score > best.score ? current :
best)` accumulation of src/unnamed/part_001, line 627-629. -/
def reduceBest (best : Candidate) : List Candidate → Candidate
  | [] => best
  | c :: cs => reduceBest (if scoreCandidate c > scoreCandidate best then c else best) cs

/-- Function `selectBestCandidate` of src/unnamed/part_001, lines 600-630: nothing on
an empty list, the sole element of a singleton unchanged, otherwise the
left-to-right score reduction over all candidates. -/
def selectBestCandidate : List Candidate → Option Candidate
  | [] => none
  | [c] => some c
  | c1 :: c2 :: cs => some (reduceBest c1 (c2 :: cs))

/-- Selector score stated the way claim C6 words it: `w1·confidence +
w2·circularity + w3·sizePlausibility + methodBonus` with weights 0.4, 0.3,
0.2, sizePlausibility 1 inside the 10-60px band and 0.5 otherwise, and a
0.1 method bonus.  This definition follows the spec text and is compared
with `scoreCandidate`. -/
def specSelectorScore (c : Candidate) : ℚ :=
  (4/10) * c.confidence + (3/10) * c.circularity +
    (2/10) * (if 10 < c.diameter ∧ c.diameter < 60 then 1 else 5/10) +
    (if c.method = Method.starburst ∨ c.method = Method.hough then 1/10 else 0)

/-- A 2-D point in frame pixels. -/
structure Point where
  x : ℚ
  y : ℚ
deriving DecidableEq, Repr

/-- Result object returned by `analyzeEyeAdvanced` (src/unnamed/part_001,
lines 272-284): frame-absolute center, raw size and quality metrics. -/
structure RawResult where
  center : Point
  size : ℚ
  confidence : ℚ
  circularity : ℚ
  contrast : ℚ
  method : Method
deriving DecidableEq, Repr

/-- Function `calculateStability` of src/unnamed/part_001, lines 632-646.  `sqrtFn`
abstracts JavaScript's `Math.sqrt`; the theorems below hold for every
choice of it. -/
def calculateStability (sqrtFn : ℚ → ℚ) (current : RawResult)
    (previous : Option RawResult) : ℚ :=
  match previous with
  | none => 5/10
  | some prev =>
    let centerDist := sqrtFn ((current.center.x - prev.center.x) ^ 2 +
      (current.center.y - prev.center.y) ^ 2)
    let sizeDiff := |current.size - prev.size|
    let centerStability := max 0 (1 - centerDist / 10)
    let sizeStability := max 0 (1 - sizeDiff / 5)
    (centerStability + sizeStability) / 2

/-- Stability stated the way claim C7 words it: the average of
`max(0, 1 − centerDelta/K1)` and `max(0, 1 − sizeDelta/K2)` with `K1 = 10`,
`K2 = 5`, `centerDelta` the Euclidean distance of the centers (the same
`sqrtFn` applied to the sum of squared differences), `sizeDelta` the
absolute diameter difference, and the neutral value 0.5 with no previous
candidate.  This definition follows the spec text and is compared with
`calculateStability`. -/
def specStability (sqrtFn : ℚ → ℚ) (current : RawResult)
    (previous : Option RawResult) : ℚ :=
  match previous with
  | none => 1/2
  | some prev =>
    let K1 : ℚ := 10
    let K2 : ℚ := 5
    let centerDelta := sqrtFn ((current.center.x - prev.center.x) ^ 2 +
      (current.center.y - prev.center.y) ^ 2)
    let sizeDelta := |current.size - prev.size|
    (max 0 (1 - centerDelta / K1) + max 0 (1 - sizeDelta / K2)) / 2

/-- A connected component (contour) as consumed by the threshold
generators: `cv.contourArea`, the moments `m00, m10, m01` and
`cv.arcLength` are abstracted as input data. -/
structure Contour where
  area : ℚ
  m00 : ℚ
  m10 : ℚ
  m01 : ℚ
  perimeter : ℚ
deriving DecidableEq, Repr

/-- Entry pushed onto `bestResults` by `advancedThresholdDetection`
(src/unnamed/part_001, lines 396-404). -/
structure ThresholdResult where
  cx : ℚ
  cy : ℚ
  diameter : ℚ
  confidence : ℚ
  circularity : ℚ
  area : ℚ
  threshold : ℕ
deriving DecidableEq, Repr

/-- The record built from an accepted contour in
`advancedThresholdDetection`: centroid from moments, `circularity =
4π·area/perimeter²`, `diameter = 2·sqrt(area/π)`, `confidence =
circularity · min(1, area/200)`. -/
def thresholdResultOf (pi : ℚ) (sqrtFn : ℚ → ℚ) (t : ℕ) (k : Contour) :
    ThresholdResult :=
  { cx := k.m10 / k.m00
    cy := k.m01 / k.m00
    diameter := 2 * sqrtFn (k.area / pi)
    confidence := (4 * pi * k.area / (k.perimeter * k.perimeter)) *
      min 1 (k.area / 200)
    circularity := 4 * pi * k.area / (k.perimeter * k.perimeter)
    area := k.area
    threshold := t }

/-- Contour loop of `advancedThresholdDetection` for one threshold value
(src/unnamed/part_001, lines 381-406): keep contours with
`area > 30 && area < 1000`, nonzero `m00` and `circularity > 0.3`. -/
def collectAtThreshold (pi : ℚ) (sqrtFn : ℚ → ℚ) (t : ℕ)
    (contours : List Contour) : List ThresholdResult :=
  contours.filterMap (fun k =>
    if 30 < k.area ∧ k.area < 1000 then
      if k.m00 = 0 then none
      else if 4 * pi * k.area / (k.perimeter * k.perimeter) > 3/10 then
        some (thresholdResultOf pi sqrtFn t k)
      else none
    else none)

/-- The reduction `bestResults.reduce((best, current) => current.confidence >
best.confidence ? current : best)` (src/unnamed/part_001, line 419-421). -/
def reduceByConfidence (best : ThresholdResult) :
    List ThresholdResult → ThresholdResult
  | [] => best
  | c :: cs =>
    reduceByConfidence (if c.confidence > best.confidence then c else best) cs

/-- Function `advancedThresholdDetection` of src/unnamed/part_001, lines 354-427:
collect candidate records over the fixed threshold values 30..70 (the
contours produced at each threshold are abstracted as `contoursOf`) and
return the one with the highest confidence, or nothing. -/
def advancedThresholdDetection (pi : ℚ) (sqrtFn : ℚ → ℚ)
    (contoursOf : ℕ → List Contour) : Option ThresholdResult :=
  let bestResults := ([30, 40, 50, 60, 70] : List ℕ).foldr
    (fun t acc => collectAtThreshold pi sqrtFn t (contoursOf t) ++ acc) []
  match bestResults with
  | [] => none
  | b :: rest => some (reduceByConfidence b rest)

/-- The candidate record built from an accepted contour in
`detectPupilByAdaptiveThreshold` (src/src/hooks/usePupilDetection.js,
lines 219-245): its `confidence` is the combined score
`circularity·0.6 + centerScore·0.4`. -/
def adaptiveCandidateOf (pi : ℚ) (sqrtFn : ℚ → ℚ) (width height : ℚ)
    (k : Contour) : Candidate :=
  let cx := k.m10 / k.m00
  let cy := k.m01 / k.m00
  let circularity := 4 * pi * k.area / (k.perimeter * k.perimeter)
  let centerDist := sqrtFn ((cx - width/2) ^ 2 + (cy - height/2) ^ 2)
  let centerScore := max 0 (1 - centerDist / (width/4))
  { cx := cx
    cy := cy
    diameter := 2 * sqrtFn (k.area / pi)
    confidence := circularity * (6/10) + centerScore * (4/10)
    circularity := circularity
    method := Method.adaptive }

/-- The score `circularity·0.6 + centerScore·0.4` that
`detectPupilByAdaptiveThreshold` compares against `bestScore`. -/
def adaptiveScore (pi : ℚ) (sqrtFn : ℚ → ℚ) (width height : ℚ)
    (k : Contour) : ℚ :=
  let cx := k.m10 / k.m00
  let cy := k.m01 / k.m00
  let circularity := 4 * pi * k.area / (k.perimeter * k.perimeter)
  let centerDist := sqrtFn ((cx - width/2) ^ 2 + (cy - height/2) ^ 2)
  let centerScore := max 0 (1 - centerDist / (width/4))
  circularity * (6/10) + centerScore * (4/10)

/-- Contour loop of `detectPupilByAdaptiveThreshold`
(src/src/hooks/usePupilDetection.js, lines 212-247): skip contours with
`area < 15 || area > 400` or zero `m00`; keep the best-scoring contour with
`circularity > 0.4`. -/
def adaptiveLoop (pi : ℚ) (sqrtFn : ℚ → ℚ) (width height : ℚ) :
    List Contour → ℚ → Option Candidate → Option Candidate
  | [], _, best => best
  | k :: ks, bestScore, best =>
    if k.area < 15 ∨ k.area > 400 then
      adaptiveLoop pi sqrtFn width height ks bestScore best
    else if k.m00 = 0 then
      adaptiveLoop pi sqrtFn width height ks bestScore best
    else if adaptiveScore pi sqrtFn width height k > bestScore ∧
        4 * pi * k.area / (k.perimeter * k.perimeter) > 4/10 then
      adaptiveLoop pi sqrtFn width height ks
        (adaptiveScore pi sqrtFn width height k)
        (some (adaptiveCandidateOf pi sqrtFn width height k))
    else
      adaptiveLoop pi sqrtFn width height ks bestScore best

/-- Function `detectPupilByAdaptiveThreshold` starting from `bestScore = 0`,
`bestPupil = null`. -/
def detectPupilByAdaptiveThreshold (pi : ℚ) (sqrtFn : ℚ → ℚ)
    (width height : ℚ) (contours : List Contour) : Option Candidate :=
  adaptiveLoop pi sqrtFn width height contours 0 none

/-- Eye labels. -/
inductive Eye where
  | left
  | right
deriving DecidableEq, Repr

/-- The `eyeType` argument of `detectPupil`. -/
inductive EyeMode where
  | left
  | right
  | both
deriving DecidableEq, Repr

/-- The list `eyeType === 'both' ? ['left', 'right'] : [eyeType]`
(src/unnamed/part_001, line 175). -/
def eyesToProcess : EyeMode → List Eye
  | EyeMode.both => [Eye.left, Eye.right]
  | EyeMode.left => [Eye.left]
  | EyeMode.right => [Eye.right]

/-- State of class `AdvancedKalmanFilter` (src/unnamed/part_001, lines
66-133).  The JS `state` array `[x, y, size, vx, vy, vsize]` is spelled as
named fields; the `covariance` matrix created by the constructor is never
read nor written by `update`, so it is not modelled. -/
structure AdvState where
  dt : ℚ
  processNoise : ℚ
  measurementNoise : ℚ
  x : ℚ
  y : ℚ
  size : ℚ
  vx : ℚ
  vy : ℚ
  vsize : ℚ
  isInit : Bool
deriving DecidableEq, Repr

/-- Measurement object `{x, y, size}` fed to `AdvancedKalmanFilter.update`. -/
structure Meas3 where
  x : ℚ
  y : ℚ
  size : ℚ
deriving DecidableEq, Repr

namespace AdvancedKalmanFilter

/-- Constructor `new AdvancedKalmanFilter(processNoise, measurementNoise)`:
`dt = 1`, state zeroed, not initialized. -/
def new (processNoise measurementNoise : ℚ) : AdvState :=
  { dt := 1, processNoise := processNoise,
    measurementNoise := measurementNoise,
    x := 0, y := 0, size := 0, vx := 0, vy := 0, vsize := 0, isInit := false }

/-- Method `update(measurement)` of src/unnamed/part_001, lines 87-132: on the
first call copy the measurement into the state with zero velocities; then
predict positions with the velocities and blend the innovation with the
fixed gain 0.3, storing `gain·innovation/dt` as the new velocities. -/
def update (s : AdvState) (m : Meas3) : Meas3 × AdvState :=
  if s.isInit = false then
    let s1 := { s with x := m.x, y := m.y, size := m.size,
                       vx := 0, vy := 0, vsize := 0, isInit := true }
    (⟨s1.x, s1.y, s1.size⟩, s1)
  else
    let px := s.x + s.vx * s.dt
    let py := s.y + s.vy * s.dt
    let psize := s.size + s.vsize * s.dt
    let ix := m.x - px
    let iy := m.y - py
    let iz := m.size - psize
    let gain : ℚ := 3/10
    let s1 := { s with
      x := px + gain * ix, y := py + gain * iy, size := psize + gain * iz,
      vx := gain * ix / s.dt, vy := gain * iy / s.dt,
      vsize := gain * iz / s.dt }
    (⟨s1.x, s1.y, s1.size⟩, s1)

end AdvancedKalmanFilter

/-- Outputs of the four candidate generators of `analyzeEyeAdvanced`
(src/unnamed/part_001, lines 249-263), abstracted as inputs: the pixel
analysis itself is outside the shallow embedding. -/
structure GenOutputs where
  starburst : Option Candidate
  threshold : Option Candidate
  hough : Option Candidate
  gradient : Option Candidate
deriving DecidableEq, Repr

/-- The push `if (result) candidates.push({ ...result, method: tag })`. -/
def tagOpt : Option Candidate → Method → List Candidate
  | none, _ => []
  | some c, m => [{ c with method := m }]

/-- The `candidates` array accumulated in the fixed generator order
starburst, threshold, hough, gradient. -/
def candidatesOf (g : GenOutputs) : List Candidate :=
  tagOpt g.starburst Method.starburst ++ tagOpt g.threshold Method.threshold ++
    tagOpt g.hough Method.hough ++ tagOpt g.gradient Method.gradient

/-- Per-eye input of one `analyzeEyeAdvanced` call: the ROI offset `x, y`
and the generator outputs.  `none` models the soft-failure paths of
src/unnamed/part_001, lines 241 and 288-291 (landmarks absent — the thrown
error is caught and `null` returned — or a degenerate region). -/
structure EyeInput where
  x : ℚ
  y : ℚ
  gens : GenOutputs
deriving DecidableEq, Repr

/-- Function `analyzeEyeAdvanced` (src/unnamed/part_001, lines 218-292) from the
candidate collection on: if no generator produced a candidate return
`null`; otherwise select the best candidate and translate it to
frame-absolute coordinates.  (None of the four generators sets a
`contrast` field, so `bestCandidate.contrast || 0` is always 0.) -/
def analyzeEyeAdvanced (input : Option EyeInput) : Option RawResult :=
  match input with
  | none => none
  | some inp =>
    let candidates := candidatesOf inp.gens
    if candidates.isEmpty then none
    else
      match selectBestCandidate candidates with
      | none => none
      | some best =>
        some { center := ⟨inp.x + best.cx, inp.y + best.cy⟩
               size := best.diameter
               confidence := best.confidence
               circularity := best.circularity
               contrast := 0
               method := best.method }

/-- Entry stored in `results[eye]` by `detectPupil`
(src/unnamed/part_001, lines 190-199). -/
structure EyeOutput where
  center : Point
  size : ℚ
  rawSize : ℚ
  rawCenter : Point
  confidence : ℚ
  circularity : ℚ
  contrast : ℚ
  stability : ℚ
deriving DecidableEq, Repr

/-- Persistent engine state: the `kalmanFilters` and `previousPupils` refs
of src/unnamed/part_001, lines 55-63. -/
structure EngineState where
  kalmanFilters : Eye → Option AdvState
  previousPupils : Eye → Option RawResult

/-- Both refs start as `{ left: null, right: null }`. -/
def initialEngine : EngineState :=
  { kalmanFilters := fun _ => none, previousPupils := fun _ => none }

/-- The tracking reset performed on camera stop (src/src/App.jsx, lines
854-861 replace every per-eye filter with a freshly constructed one).  On
the lazily-creating engine of src/unnamed/part_001 this amounts to
clearing all per-eye FilterState, so the next hit re-creates a fresh
filter and initializes it from the raw measurement. -/
def resetEngine : EngineState := initialEngine

/-- Lookup `kalmanFilters.current[eye]`, lazily constructing
`new AdvancedKalmanFilter(0.1, 2)` (src/unnamed/part_001, lines 182-185). -/
def filterFor (st : EngineState) (eye : Eye) : AdvState :=
  match st.kalmanFilters eye with
  | some f => f
  | none => AdvancedKalmanFilter.new (1/10) 2

/-- The `results[eye]` record built on a successful analysis
(src/unnamed/part_001, lines 186-199). -/
def eyeOutputOf (sqrtFn : ℚ → ℚ) (st : EngineState) (eye : Eye)
    (result : RawResult) : EyeOutput :=
  let upd := AdvancedKalmanFilter.update (filterFor st eye)
    ⟨result.center.x, result.center.y, result.size⟩
  { center := ⟨upd.1.x, upd.1.y⟩
    size := upd.1.size
    rawSize := result.size
    rawCenter := result.center
    confidence := result.confidence
    circularity := result.circularity
    contrast := result.contrast
    stability := calculateStability sqrtFn result (st.previousPupils eye) }

/-- The engine state after a successful analysis of `eye`: the updated
filter is stored back and `previousPupils[eye] = result`
(src/unnamed/part_001, lines 188 and 202). -/
def engineAfter (st : EngineState) (eye : Eye) (result : RawResult) :
    EngineState :=
  let upd := AdvancedKalmanFilter.update (filterFor st eye)
    ⟨result.center.x, result.center.y, result.size⟩
  { kalmanFilters := fun e => if e = eye then some upd.2 else st.kalmanFilters e,
    previousPupils := fun e => if e = eye then some result else st.previousPupils e }

/-- One iteration of the `eyesToProcess.forEach` body
(src/unnamed/part_001, lines 177-204): a `null` analysis leaves both refs
untouched and emits nothing. -/
def processEye (sqrtFn : ℚ → ℚ) (st : EngineState) (input : Option EyeInput)
    (eye : Eye) : EngineState × Option EyeOutput :=
  match analyzeEyeAdvanced input with
  | none => (st, none)
  | some result =>
    (engineAfter st eye result, some (eyeOutputOf sqrtFn st eye result))

/-- The `forEach` over the requested eyes, threading the engine state and
accumulating the `results` entries in order. -/
def detectLoop (sqrtFn : ℚ → ℚ) (inputs : Eye → Option EyeInput) :
    List Eye → EngineState → EngineState × List (Eye × EyeOutput)
  | [], st => (st, [])
  | e :: rest, st =>
    match processEye sqrtFn st (inputs e) e with
    | (st1, none) => detectLoop sqrtFn inputs rest st1
    | (st1, some out) =>
      let next := detectLoop sqrtFn inputs rest st1
      (next.1, (e, out) :: next.2)

/-- Function `detectPupil` (src/unnamed/part_001, lines 135-216) from the per-eye
loop on: returns `null` when no eye produced an entry
(`Object.keys(results).length > 0 ? results : null`, line 206). -/
def detectPupil (sqrtFn : ℚ → ℚ) (st : EngineState)
    (inputs : Eye → Option EyeInput) (eyeType : EyeMode) :
    EngineState × Option (List (Eye × EyeOutput)) :=
  let r := detectLoop sqrtFn inputs (eyesToProcess eyeType) st
  (r.1, match r.2 with
    | [] => none
    | rs => some rs)

/-- Lookup of `results[eye]` in the accumulated entry list. -/
def findEye : List (Eye × EyeOutput) → Eye → Option EyeOutput
  | [], _ => none
  | (e1, o) :: rest, e => if e1 = e then some o else findEye rest e

/-- Lookup through the optional result object: a `null` result has no
entries. -/
def lookupEye (res : Option (List (Eye × EyeOutput))) (e : Eye) :
    Option EyeOutput :=
  match res with
  | none => none
  | some rs => findEye rs e

/-- Claim C1: for every Temporal Filter channel the first measurement `m`
initializes the filter with `estimate = m` (the errorCovariance starting
from 1), and every subsequent measurement updates the state by exactly the
spec recurrence `errorCovariance += Q; K = errorCovariance /
(errorCovariance + R); estimate += K·(m − estimate); errorCovariance *=
(1 − K)`, returning the new estimate.  Stated for both one-dimensional
filter classes of the repository: `SimpleKalmanFilter`
(src/src/hooks/usePupilDetection.js) and `KalmanFilter`
(src/src/utils/KalmanFilter.js); in the latter the first call also runs the
recurrence once after `init` (which leaves the estimate at `m`). -/
theorem claim_C1_filter_update_recurrence :
    (∀ Q R m : ℚ, SimpleKalmanFilter.update (SimpleKalmanFilter.new Q R) m =
      (m, { Q := Q, R := R, x := m, P := 1, isInit := true })) ∧
    (∀ (s : KFState) (m : ℚ), s.isInit = true →
      SimpleKalmanFilter.update s m =
        ((specFilterStep s.Q s.R s.x s.P m).1,
         { s with x := (specFilterStep s.Q s.R s.x s.P m).1,
                  P := (specFilterStep s.Q s.R s.x s.P m).2 })) ∧
    (∀ Q R m : ℚ,
      (KalmanFilter.update (KalmanFilter.new Q R) m).1 = m ∧
      (KalmanFilter.update (KalmanFilter.new Q R) m).2.x = m ∧
      (KalmanFilter.update (KalmanFilter.new Q R) m).2.isInit = true ∧
      (KalmanFilter.update (KalmanFilter.new Q R) m).2.P =
        (specFilterStep Q R m 1 m).2) ∧
    (∀ (s : KFState) (m : ℚ), s.isInit = true →
      KalmanFilter.update s m =
        ((specFilterStep s.Q s.R s.x s.P m).1,
         { s with x := (specFilterStep s.Q s.R s.x s.P m).1,
                  P := (specFilterStep s.Q s.R s.x s.P m).2 })) := by
  refine ⟨?_, ?_, ?_, ?_⟩
  · intro Q R m
    simp [SimpleKalmanFilter.update, SimpleKalmanFilter.new]
  · intro s m h
    cases s with
    | mk Q R x P isInit =>
      cases isInit with
      | false => simp at h
      | true => simp [SimpleKalmanFilter.update, specFilterStep]
  · intro Q R m
    refine ⟨?_, ?_, ?_, ?_⟩ <;>
      simp [KalmanFilter.update, KalmanFilter.new, KalmanFilter.init, specFilterStep]
  · intro s m h
    cases s with
    | mk Q R x P isInit =>
      cases isInit with
      | false => simp at h
      | true => simp [KalmanFilter.update, KalmanFilter.init, specFilterStep]

/-- Witness for C1: the initialized-update branches evaluated at a concrete
state (Q = 1/10, R = 10, x = 2, P = 1) and measurement 6. -/
theorem claim_C1_filter_update_recurrence_witness :
    SimpleKalmanFilter.update ⟨1/10, 10, 2, 1, true⟩ 6 =
      ((specFilterStep (1/10) 10 2 1 6).1,
       { Q := 1/10, R := 10, x := (specFilterStep (1/10) 10 2 1 6).1,
         P := (specFilterStep (1/10) 10 2 1 6).2, isInit := true }) ∧
    KalmanFilter.update ⟨1/10, 10, 2, 1, true⟩ 6 =
      ((specFilterStep (1/10) 10 2 1 6).1,
       { Q := 1/10, R := 10, x := (specFilterStep (1/10) 10 2 1 6).1,
         P := (specFilterStep (1/10) 10 2 1 6).2, isInit := true }) :=
  ⟨claim_C1_filter_update_recurrence.2.1 ⟨1/10, 10, 2, 1, true⟩ 6 rfl,
   claim_C1_filter_update_recurrence.2.2.2 ⟨1/10, 10, 2, 1, true⟩ 6 rfl⟩

/-- Arithmetic core of the covariance recurrence: with `P, Q, R` positive,
the post-update covariance `(P+Q) * (1 - (P+Q)/((P+Q)+R))` is positive. -/
lemma covRec_pos {P Q R : ℚ} (hP : 0 < P) (hQ : 0 < Q) (hR : 0 < R) :
    0 < (P + Q) * (1 - (P + Q) / ((P + Q) + R)) := by
  have hA : 0 < P + Q := by linarith
  have hAR : 0 < (P + Q) + R := by linarith
  have hK : (1 : ℚ) - (P + Q) / ((P + Q) + R) = R / ((P + Q) + R) := by
    field_simp
  rw [hK]
  exact mul_pos hA (div_pos hR hAR)

/-- Updating preserves: `KalmanFilter.update` preserves `Q`, `R` and positivity of `P`. -/
lemma kalman_update_inv {s : KFState} {m : ℚ}
    (hQ : 0 < s.Q) (hR : 0 < s.R) (hP : 0 < s.P) :
    (KalmanFilter.update s m).2.Q = s.Q ∧ (KalmanFilter.update s m).2.R = s.R ∧
    0 < (KalmanFilter.update s m).2.P := by
  cases h : s.isInit with
  | false =>
    refine ⟨by simp [KalmanFilter.update, KalmanFilter.init, h],
            by simp [KalmanFilter.update, KalmanFilter.init, h], ?_⟩
    simp only [KalmanFilter.update, KalmanFilter.init, h]
    simpa using covRec_pos one_pos hQ hR
  | true =>
    refine ⟨by simp [KalmanFilter.update, h],
            by simp [KalmanFilter.update, h], ?_⟩
    simp only [KalmanFilter.update, h]
    simpa using covRec_pos hP hQ hR

/-- Updating preserves: `SimpleKalmanFilter.update` preserves `Q`, `R` and positivity of `P`. -/
lemma simple_update_inv {s : KFState} {m : ℚ}
    (hQ : 0 < s.Q) (hR : 0 < s.R) (hP : 0 < s.P) :
    (SimpleKalmanFilter.update s m).2.Q = s.Q ∧
    (SimpleKalmanFilter.update s m).2.R = s.R ∧
    0 < (SimpleKalmanFilter.update s m).2.P := by
  cases h : s.isInit with
  | false =>
    refine ⟨by simp [SimpleKalmanFilter.update, h],
            by simp [SimpleKalmanFilter.update, h], ?_⟩
    simpa [SimpleKalmanFilter.update, h] using hP
  | true =>
    refine ⟨by simp [SimpleKalmanFilter.update, h],
            by simp [SimpleKalmanFilter.update, h], ?_⟩
    simp only [SimpleKalmanFilter.update, h]
    simpa using covRec_pos hP hQ hR

/-- Invariant for a whole run of `KalmanFilter.update`. -/
lemma runKalman_inv (Q R : ℚ) (hQ : 0 < Q) (hR : 0 < R) (ms : List ℚ) :
    (runKalman Q R ms).Q = Q ∧ (runKalman Q R ms).R = R ∧
    0 < (runKalman Q R ms).P := by
  suffices h : ∀ (s : KFState), s.Q = Q → s.R = R → 0 < s.P →
      (ms.foldl (fun s m => (KalmanFilter.update s m).2) s).Q = Q ∧
      (ms.foldl (fun s m => (KalmanFilter.update s m).2) s).R = R ∧
      0 < (ms.foldl (fun s m => (KalmanFilter.update s m).2) s).P by
    exact h (KalmanFilter.new Q R) rfl rfl one_pos
  induction ms with
  | nil => intro s h1 h2 h3; exact ⟨h1, h2, h3⟩
  | cons m rest ih =>
    intro s h1 h2 h3
    have hstep := kalman_update_inv (s := s) (m := m)
      (h1 ▸ hQ) (h2 ▸ hR) h3
    exact ih _ (hstep.1.trans h1) (hstep.2.1.trans h2) hstep.2.2

/-- Invariant for a whole run of `SimpleKalmanFilter.update`. -/
lemma runSimple_inv (Q R : ℚ) (hQ : 0 < Q) (hR : 0 < R) (ms : List ℚ) :
    (runSimple Q R ms).Q = Q ∧ (runSimple Q R ms).R = R ∧
    0 < (runSimple Q R ms).P := by
  suffices h : ∀ (s : KFState), s.Q = Q → s.R = R → 0 < s.P →
      (ms.foldl (fun s m => (SimpleKalmanFilter.update s m).2) s).Q = Q ∧
      (ms.foldl (fun s m => (SimpleKalmanFilter.update s m).2) s).R = R ∧
      0 < (ms.foldl (fun s m => (SimpleKalmanFilter.update s m).2) s).P by
    exact h (SimpleKalmanFilter.new Q R) rfl rfl one_pos
  induction ms with
  | nil => intro s h1 h2 h3; exact ⟨h1, h2, h3⟩
  | cons m rest ih =>
    intro s h1 h2 h3
    have hstep := simple_update_inv (s := s) (m := m)
      (h1 ▸ hQ) (h2 ▸ hR) h3
    exact ih _ (hstep.1.trans h1) (hstep.2.1.trans h2) hstep.2.2

/-- Gain bounds at any state with positive `P`, `Q`, `R`. -/
lemma kalmanGain_bounds {s : KFState} (hQ : 0 < s.Q) (hR : 0 < s.R)
    (hP : 0 < s.P) :
    (s.P + s.Q) + s.R ≠ 0 ∧ 0 < kalmanGain s ∧ kalmanGain s < 1 := by
  have hA : 0 < s.P + s.Q := by linarith
  have hAR : 0 < (s.P + s.Q) + s.R := by linarith
  refine ⟨ne_of_gt hAR, div_pos hA hAR, ?_⟩
  rw [kalmanGain, div_lt_one hAR]
  linarith

/-- Claim C10: with `Q > 0` and `R > 0`, after any finite sequence of
measurements the errorCovariance `P` of both one-dimensional filter classes
stays strictly positive, the gain denominator `(P + Q) + R` of the next
update is nonzero, and the gain `K = (P + Q) / ((P + Q) + R)` satisfies
`0 < K < 1`; hence no update ever divides by zero. -/
theorem claim_C10_covariance_positive_gain_bounded
    (Q R : ℚ) (ms : List ℚ) (hQ : 0 < Q) (hR : 0 < R) :
    (0 < (runKalman Q R ms).P ∧
     ((runKalman Q R ms).P + (runKalman Q R ms).Q) + (runKalman Q R ms).R ≠ 0 ∧
     0 < kalmanGain (runKalman Q R ms) ∧ kalmanGain (runKalman Q R ms) < 1) ∧
    (0 < (runSimple Q R ms).P ∧
     ((runSimple Q R ms).P + (runSimple Q R ms).Q) + (runSimple Q R ms).R ≠ 0 ∧
     0 < kalmanGain (runSimple Q R ms) ∧ kalmanGain (runSimple Q R ms) < 1) := by
  obtain ⟨hKQ, hKR, hKP⟩ := runKalman_inv Q R hQ hR ms
  obtain ⟨hSQ, hSR, hSP⟩ := runSimple_inv Q R hQ hR ms
  obtain ⟨k1, k2, k3⟩ := kalmanGain_bounds (s := runKalman Q R ms)
    (by rw [hKQ]; exact hQ) (by rw [hKR]; exact hR) hKP
  obtain ⟨s1, s2, s3⟩ := kalmanGain_bounds (s := runSimple Q R ms)
    (by rw [hSQ]; exact hQ) (by rw [hSR]; exact hR) hSP
  exact ⟨⟨hKP, k1, k2, k3⟩, ⟨hSP, s1, s2, s3⟩⟩

/-- Witness for C10: the default tunings of the code, `Q = 1/10, R = 10`
(KalmanFilter.js), on a concrete three-measurement run. -/
theorem claim_C10_covariance_positive_gain_bounded_witness :
    0 < (runKalman (1/10) 10 [3, 5, 4]).P ∧
    0 < (runSimple (1/10) 10 [3, 5, 4]).P :=
  ⟨(claim_C10_covariance_positive_gain_bounded (1/10) 10 [3, 5, 4]
      (by norm_num) (by norm_num)).1.1,
   (claim_C10_covariance_positive_gain_bounded (1/10) 10 [3, 5, 4]
      (by norm_num) (by norm_num)).2.1⟩

/-- Closed form of `KalmanFilter.update` on an initialized state. -/
lemma kalman_update_init_true (Q R x P m : ℚ) :
    KalmanFilter.update ⟨Q, R, x, P, true⟩ m =
      (x + ((P + Q) / ((P + Q) + R)) * (m - x),
       ⟨Q, R, x + ((P + Q) / ((P + Q) + R)) * (m - x),
        (P + Q) * (1 - (P + Q) / ((P + Q) + R)), true⟩) := by
  simp [KalmanFilter.update]

/-- Every state on the constant-feed trajectory has the shape
`⟨Q, R, x, P, true⟩` with `P > 0`. -/
lemma kfTraj_shape (Q R x0 P0 M : ℚ) (hQ : 0 < Q) (hR : 0 < R)
    (hP0 : 0 < P0) :
    ∀ n, ∃ x P, kfTraj Q R x0 P0 M n = ⟨Q, R, x, P, true⟩ ∧ 0 < P := by
  intro n
  induction n with
  | zero => exact ⟨x0, P0, rfl, hP0⟩
  | succ n ih =>
    obtain ⟨x, P, heq, hP⟩ := ih
    refine ⟨x + ((P + Q) / ((P + Q) + R)) * (M - x),
            (P + Q) * (1 - (P + Q) / ((P + Q) + R)), ?_, covRec_pos hP hQ hR⟩
    show (KalmanFilter.update (kfTraj Q R x0 P0 M n) M).2 = _
    rw [heq, kalman_update_init_true]

/-- The covariance recurrence does not increase the covariance as soon as
`Q·R ≤ P·(P + Q)`. -/
lemma covNext_le_self {Q R P : ℚ} (hQ : 0 < Q) (hR : 0 < R) (hP : 0 < P)
    (h : Q * R ≤ P * (P + Q)) : covNext Q R P ≤ P := by
  have hA : 0 < P + Q := by linarith
  have hAR : 0 < (P + Q) + R := by linarith
  have hform : covNext Q R P = ((P + Q) * R) / ((P + Q) + R) := by
    rw [covNext]
    field_simp
  rw [hform, div_le_iff₀ hAR]
  nlinarith

/-- The covariance recurrence is monotone on positive covariances. -/
lemma covNext_mono {Q R P1 P2 : ℚ} (hQ : 0 < Q) (hR : 0 < R)
    (hP1 : 0 < P1) (hP2 : 0 < P2) (h : P1 ≤ P2) :
    covNext Q R P1 ≤ covNext Q R P2 := by
  have hA1 : 0 < P1 + Q := by linarith
  have hA2 : 0 < P2 + Q := by linarith
  have hAR1 : 0 < (P1 + Q) + R := by linarith
  have hAR2 : 0 < (P2 + Q) + R := by linarith
  have hform1 : covNext Q R P1 = ((P1 + Q) * R) / ((P1 + Q) + R) := by
    rw [covNext]; field_simp
  have hform2 : covNext Q R P2 = ((P2 + Q) * R) / ((P2 + Q) + R) := by
    rw [covNext]; field_simp
  rw [hform1, hform2, div_le_div_iff₀ hAR1 hAR2]
  have hkey : (P2 + Q) * R * ((P1 + Q) + R) - (P1 + Q) * R * ((P2 + Q) + R) =
      R * R * (P2 - P1) := by ring
  nlinarith [mul_nonneg (mul_pos hR hR).le (sub_nonneg.mpr h)]

/-- One constant-feed step contracts the distance of the estimate to the
measurement by the factor `R/(Q+R) < 1`. -/
lemma err_step {Q R P M x : ℚ} (hQ : 0 < Q) (hR : 0 < R) (hP : 0 < P) :
    |(x + ((P + Q) / ((P + Q) + R)) * (M - x)) - M| ≤
      (R / (Q + R)) * |x - M| := by
  have hA : 0 < P + Q := by linarith
  have hAR : 0 < (P + Q) + R := by linarith
  have hQR : 0 < Q + R := by linarith
  have hfac : (x + ((P + Q) / ((P + Q) + R)) * (M - x)) - M =
      (1 - (P + Q) / ((P + Q) + R)) * (x - M) := by ring
  have hKform : (1 : ℚ) - (P + Q) / ((P + Q) + R) = R / ((P + Q) + R) := by
    field_simp
  have hnonneg : (0 : ℚ) ≤ 1 - (P + Q) / ((P + Q) + R) := by
    rw [hKform]; positivity
  have hle : 1 - (P + Q) / ((P + Q) + R) ≤ R / (Q + R) := by
    rw [hKform, div_le_div_iff₀ hAR hQR]
    nlinarith
  rw [hfac, abs_mul, abs_of_nonneg hnonneg]
  exact mul_le_mul_of_nonneg_right hle (abs_nonneg _)

/-- The contraction factor is at most one, so each step is non-increasing. -/
lemma err_step_le {Q R P M x : ℚ} (hQ : 0 < Q) (hR : 0 < R) (hP : 0 < P) :
    |(x + ((P + Q) / ((P + Q) + R)) * (M - x)) - M| ≤ |x - M| := by
  have h1 := err_step (M := M) (x := x) hQ hR hP
  have hc : R / (Q + R) ≤ 1 := by
    rw [div_le_one (by linarith : (0:ℚ) < Q + R)]; linarith
  calc |(x + ((P + Q) / ((P + Q) + R)) * (M - x)) - M|
      ≤ (R / (Q + R)) * |x - M| := h1
    _ ≤ 1 * |x - M| := mul_le_mul_of_nonneg_right hc (abs_nonneg _)
    _ = |x - M| := one_mul _

/-- Geometric bound on the estimate error of the constant-feed trajectory. -/
lemma kfTraj_err_geom (Q R x0 P0 M : ℚ) (hQ : 0 < Q) (hR : 0 < R)
    (hP0 : 0 < P0) :
    ∀ n, |(kfTraj Q R x0 P0 M n).x - M| ≤ (R / (Q + R)) ^ n * |x0 - M| := by
  intro n
  induction n with
  | zero => simp [kfTraj, kfIterate]
  | succ n ih =>
    obtain ⟨x, P, heq, hP⟩ := kfTraj_shape Q R x0 P0 M hQ hR hP0 n
    have hx : (kfTraj Q R x0 P0 M n).x = x := by rw [heq]
    have hstep : (kfTraj Q R x0 P0 M (n + 1)).x =
        x + ((P + Q) / ((P + Q) + R)) * (M - x) := by
      show ((KalmanFilter.update (kfTraj Q R x0 P0 M n) M).2).x = _
      rw [heq, kalman_update_init_true]
    have hc : (0 : ℚ) ≤ R / (Q + R) := by positivity
    calc |(kfTraj Q R x0 P0 M (n + 1)).x - M|
        ≤ (R / (Q + R)) * |x - M| := by rw [hstep]; exact err_step hQ hR hP
      _ ≤ (R / (Q + R)) * ((R / (Q + R)) ^ n * |x0 - M|) := by
          apply mul_le_mul_of_nonneg_left _ hc
          rw [← hx]; exact ih
      _ = (R / (Q + R)) ^ (n + 1) * |x0 - M| := by ring

/-- Updating an initialized filter with its own estimate as measurement
leaves the estimate unchanged and applies the covariance recurrence. -/
lemma kalman_update_const (Q R P M : ℚ) :
    (KalmanFilter.update ⟨Q, R, M, P, true⟩ M).2 = ⟨Q, R, M, covNext Q R P, true⟩ := by
  have hx : M + ((P + Q) / ((P + Q) + R)) * (M - M) = M := by ring
  rw [kalman_update_init_true]
  show KFState.mk Q R (M + ((P + Q) / ((P + Q) + R)) * (M - M))
    ((P + Q) * (1 - (P + Q) / ((P + Q) + R))) true = _
  rw [hx]
  rfl

/-- On an uninitialized state, `update` first runs `init`, so it acts like
`update` on the freshly initialized state. -/
lemma kalman_update_uninit (Q R x P m : ℚ) :
    KalmanFilter.update ⟨Q, R, x, P, false⟩ m =
      KalmanFilter.update ⟨Q, R, m, 1, true⟩ m := by
  simp [KalmanFilter.update, KalmanFilter.init]

/-- Feeding a constant `M` into a fresh channel pins the estimate at `M`
from the first update on. -/
lemma kfIterate_fresh_shape (Q R M : ℚ) (hQ : 0 < Q) (hR : 0 < R) :
    ∀ n, ∃ P, kfIterate ⟨Q, R, 0, 1, false⟩ M (n + 1) = ⟨Q, R, M, P, true⟩ ∧
      0 < P := by
  intro n
  induction n with
  | zero =>
    refine ⟨covNext Q R 1, ?_, by simpa [covNext] using covRec_pos one_pos hQ hR⟩
    show (KalmanFilter.update (kfIterate ⟨Q, R, 0, 1, false⟩ M 0) M).2 = _
    show (KalmanFilter.update ⟨Q, R, 0, 1, false⟩ M).2 = _
    rw [kalman_update_uninit, kalman_update_const]
  | succ n ih =>
    obtain ⟨P, heq, hP⟩ := ih
    refine ⟨covNext Q R P, ?_, by simpa [covNext] using covRec_pos hP hQ hR⟩
    show (KalmanFilter.update (kfIterate ⟨Q, R, 0, 1, false⟩ M (n + 1)) M).2 = _
    rw [heq, kalman_update_const]

/-- The covariance along the constant-feed trajectory follows `covNext`. -/
lemma kfTraj_P_succ (Q R x0 P0 M : ℚ) (hQ : 0 < Q) (hR : 0 < R)
    (hP0 : 0 < P0) (n : ℕ) :
    (kfTraj Q R x0 P0 M (n + 1)).P = covNext Q R (kfTraj Q R x0 P0 M n).P := by
  obtain ⟨x, P, heq, hP⟩ := kfTraj_shape Q R x0 P0 M hQ hR hP0 n
  show ((KalmanFilter.update (kfTraj Q R x0 P0 M n) M).2).P = _
  rw [heq, kalman_update_init_true]
  rfl

/-- Claim C2: a `KalmanFilter` channel (KalmanFilter.js) with positive `Q`
and `R` satisfying `Q·R ≤ P0·(P0+Q)` — which holds for every tuning the
repository configures, all of which start from `P0 = 1` — fed the constant
measurement `M`, (1) pins a fresh channel's estimate at `M` from the first
update on, (2) has `|estimate − M|` non-increasing at every step,
(3) has a monotonically non-increasing errorCovariance, and (4) has
`|estimate − M|` converging to 0. -/
theorem claim_C2_constant_feed_convergence
    (Q R x0 P0 M : ℚ) (hQ : 0 < Q) (hR : 0 < R) (hP0 : 0 < P0)
    (hQR : Q * R ≤ P0 * (P0 + Q)) :
    (∀ n : ℕ, 1 ≤ n → (kfIterate ⟨Q, R, 0, 1, false⟩ M n).x = M) ∧
    (∀ n : ℕ, |(kfTraj Q R x0 P0 M (n + 1)).x - M| ≤
      |(kfTraj Q R x0 P0 M n).x - M|) ∧
    (∀ n : ℕ, (kfTraj Q R x0 P0 M (n + 1)).P ≤ (kfTraj Q R x0 P0 M n).P) ∧
    (∀ ε : ℚ, 0 < ε → ∃ N : ℕ, ∀ n : ℕ, N ≤ n →
      |(kfTraj Q R x0 P0 M n).x - M| < ε) := by
  refine ⟨?_, ?_, ?_, ?_⟩
  · intro n hn
    cases n with
    | zero => exact absurd hn (by norm_num)
    | succ k =>
      obtain ⟨P, heq, hP⟩ := kfIterate_fresh_shape Q R M hQ hR k
      rw [heq]
  · intro n
    obtain ⟨x, P, heq, hP⟩ := kfTraj_shape Q R x0 P0 M hQ hR hP0 n
    have hstep : (kfTraj Q R x0 P0 M (n + 1)).x =
        x + ((P + Q) / ((P + Q) + R)) * (M - x) := by
      show ((KalmanFilter.update (kfTraj Q R x0 P0 M n) M).2).x = _
      rw [heq, kalman_update_init_true]
    rw [hstep, heq]
    exact err_step_le hQ hR hP
  · intro n
    induction n with
    | zero =>
      rw [kfTraj_P_succ Q R x0 P0 M hQ hR hP0 0]
      show covNext Q R P0 ≤ P0
      exact covNext_le_self hQ hR hP0 hQR
    | succ n ih =>
      obtain ⟨x1, P1, heq1, hP1⟩ := kfTraj_shape Q R x0 P0 M hQ hR hP0 n
      obtain ⟨x2, P2, heq2, hP2⟩ := kfTraj_shape Q R x0 P0 M hQ hR hP0 (n + 1)
      have hpos1 : 0 < (kfTraj Q R x0 P0 M n).P := by rw [heq1]; exact hP1
      have hpos2 : 0 < (kfTraj Q R x0 P0 M (n + 1)).P := by rw [heq2]; exact hP2
      calc (kfTraj Q R x0 P0 M (n + 1 + 1)).P
          = covNext Q R (kfTraj Q R x0 P0 M (n + 1)).P :=
            kfTraj_P_succ Q R x0 P0 M hQ hR hP0 (n + 1)
        _ ≤ covNext Q R (kfTraj Q R x0 P0 M n).P :=
            covNext_mono hQ hR hpos2 hpos1 ih
        _ = (kfTraj Q R x0 P0 M (n + 1)).P :=
            (kfTraj_P_succ Q R x0 P0 M hQ hR hP0 n).symm
  · intro ε hε
    have hc1 : R / (Q + R) < 1 := by
      rw [div_lt_one (by linarith : (0:ℚ) < Q + R)]; linarith
    have hc0 : (0:ℚ) ≤ R / (Q + R) := by positivity
    have hB : (0:ℚ) ≤ |x0 - M| := abs_nonneg _
    obtain ⟨N, hN⟩ := exists_pow_lt_of_lt_one
      (show (0:ℚ) < ε / (|x0 - M| + 1) from div_pos hε (by linarith)) hc1
    refine ⟨N, fun n hn => ?_⟩
    have h1 := kfTraj_err_geom Q R x0 P0 M hQ hR hP0 n
    have h2 : (R / (Q + R)) ^ n ≤ (R / (Q + R)) ^ N :=
      pow_le_pow_of_le_one hc0 hc1.le hn
    have h3 : (R / (Q + R)) ^ n * |x0 - M| ≤ (R / (Q + R)) ^ N * |x0 - M| :=
      mul_le_mul_of_nonneg_right h2 hB
    have h4 : (R / (Q + R)) ^ N * |x0 - M| < ε := by
      rcases hB.lt_or_eq with hBpos | hB0
      · calc (R / (Q + R)) ^ N * |x0 - M|
            < (ε / (|x0 - M| + 1)) * |x0 - M| :=
              mul_lt_mul_of_pos_right hN hBpos
          _ < ε := by
              rw [div_mul_eq_mul_div, div_lt_iff₀ (by linarith : (0:ℚ) < |x0 - M| + 1)]
              nlinarith
      · rw [← hB0, mul_zero]; exact hε
    linarith
/-- Witness for C2: the KalmanFilter.js default tuning `Q = 1/10, R = 10`
with `P0 = 1` (so `Q·R = 1 ≤ 1·(1 + 1/10)`), constant measurement 7,
evaluated at step 2. -/
theorem claim_C2_constant_feed_convergence_witness :
    (kfIterate ⟨1/10, 10, 0, 1, false⟩ 7 2).x = 7 ∧
    |(kfTraj (1/10) 10 0 1 7 3).x - 7| ≤ |(kfTraj (1/10) 10 0 1 7 2).x - 7| ∧
    (kfTraj (1/10) 10 0 1 7 3).P ≤ (kfTraj (1/10) 10 0 1 7 2).P :=
  ⟨(claim_C2_constant_feed_convergence (1/10) 10 0 1 7 (by norm_num)
      (by norm_num) (by norm_num) (by norm_num)).1 2 (by norm_num),
   (claim_C2_constant_feed_convergence (1/10) 10 0 1 7 (by norm_num)
      (by norm_num) (by norm_num) (by norm_num)).2.1 2,
   (claim_C2_constant_feed_convergence (1/10) 10 0 1 7 (by norm_num)
      (by norm_num) (by norm_num) (by norm_num)).2.2.1 2⟩

/-- The accumulator result of `reduceBest` splits the scanned list into a
strict-prefix of strictly smaller scores and a suffix of no-larger scores:
it is the first element achieving the maximal score. -/
lemma reduceBest_spec :
    ∀ (rest : List Candidate) (b : Candidate),
      ∃ l1 l2, b :: rest = l1 ++ reduceBest b rest :: l2 ∧
        (∀ d ∈ l1, scoreCandidate d < scoreCandidate (reduceBest b rest)) ∧
        (∀ d ∈ l2, scoreCandidate d ≤ scoreCandidate (reduceBest b rest)) := by
  intro rest
  induction rest with
  | nil =>
    intro b
    exact ⟨[], [], rfl, by simp, by simp⟩
  | cons c cs ih =>
    intro b
    by_cases h : scoreCandidate c > scoreCandidate b
    · have hred : reduceBest b (c :: cs) = reduceBest c cs := by
        simp [reduceBest, h]
      obtain ⟨l1, l2, hdec, h1, h2⟩ := ih c
      have hc_le : scoreCandidate c ≤ scoreCandidate (reduceBest c cs) := by
        cases l1 with
        | nil =>
          simp only [List.nil_append, List.cons.injEq] at hdec
          exact le_of_eq (congrArg scoreCandidate hdec.1)
        | cons a t =>
          simp only [List.cons_append, List.cons.injEq] at hdec
          conv_lhs => rw [hdec.1]
          exact le_of_lt (h1 a (by simp))
      refine ⟨b :: l1, l2, ?_, ?_, ?_⟩
      · rw [hred]
        show b :: (c :: cs) = (b :: l1) ++ reduceBest c cs :: l2
        rw [List.cons_append, ← hdec]
      · intro d hd
        rw [hred]
        rcases List.mem_cons.mp hd with hdb | hdl
        · rw [hdb]; exact lt_of_lt_of_le h hc_le
        · exact h1 d hdl
      · intro d hd
        rw [hred]
        exact h2 d hd
    · have hce : scoreCandidate c ≤ scoreCandidate b := not_lt.mp h
      have hred : reduceBest b (c :: cs) = reduceBest b cs := by
        simp [reduceBest, h]
      obtain ⟨l1, l2, hdec, h1, h2⟩ := ih b
      cases l1 with
      | nil =>
        simp only [List.nil_append, List.cons.injEq] at hdec
        refine ⟨[], c :: cs, ?_, by simp, ?_⟩
        · rw [hred, List.nil_append, ← hdec.1]
        · intro d hd
          rw [hred, ← hdec.1]
          rcases List.mem_cons.mp hd with hdc | hdcs
          · rw [hdc]; exact hce
          · rw [← hdec.2] at h2
            have hh := h2 d hdcs
            rw [← hdec.1] at hh
            exact hh
      | cons a t =>
        simp only [List.cons_append, List.cons.injEq] at hdec
        refine ⟨b :: c :: t, l2, ?_, ?_, ?_⟩
        · rw [hred]
          show b :: c :: cs = (b :: c :: t) ++ reduceBest b cs :: l2
          conv_lhs => rw [hdec.2]
          rfl
        · intro d hd
          rw [hred]
          have hb_lt : scoreCandidate b < scoreCandidate (reduceBest b cs) := by
            have := h1 a (by simp)
            rw [← hdec.1] at this
            exact this
          rcases List.mem_cons.mp hd with hdb | hd2
          · rw [hdb]; exact hb_lt
          · rcases List.mem_cons.mp hd2 with hdc | hdt
            · rw [hdc]; exact lt_of_le_of_lt hce hb_lt
            · exact h1 d (by simp [hdt])
        · intro d hd
          rw [hred]
          exact h2 d hd

/-- Claim C6: the selector returns nothing on an empty candidate list, the
sole candidate unchanged on a singleton, and otherwise the candidate with
the maximal score `w1·confidence + w2·circularity + w3·sizePlausibility +
methodBonus` (weights 0.4/0.3/0.2, sizePlausibility 1 inside the 10-60px
band and 0.5 otherwise, 0.1 method bonus), ties resolved in favour of the
candidate discovered first in generator order: the returned candidate
splits the list into a prefix of strictly smaller scores and a suffix of
no-larger scores. -/
theorem claim_C6_selector_best_first :
    (∀ c : Candidate, scoreCandidate c = specSelectorScore c) ∧
    selectBestCandidate [] = none ∧
    (∀ c : Candidate, selectBestCandidate [c] = some c) ∧
    (∀ (c1 c2 : Candidate) (cs : List Candidate),
      ∃ best l1 l2,
        selectBestCandidate (c1 :: c2 :: cs) = some best ∧
        c1 :: c2 :: cs = l1 ++ best :: l2 ∧
        (∀ d ∈ l1, scoreCandidate d < scoreCandidate best) ∧
        (∀ d ∈ l2, scoreCandidate d ≤ scoreCandidate best)) := by
  refine ⟨?_, rfl, fun c => rfl, ?_⟩
  · intro c
    rcases c with ⟨cx, cy, diameter, confidence, circularity, method⟩
    cases method <;> simp [scoreCandidate, specSelectorScore] <;> ring_nf
  · intro c1 c2 cs
    obtain ⟨l1, l2, hdec, h1, h2⟩ := reduceBest_spec (c2 :: cs) c1
    exact ⟨reduceBest c1 (c2 :: cs), l1, l2, rfl, hdec, h1, h2⟩

/-- Witness for C6: the selector applied to two concrete equally scored
candidates (both score 0.6) returns the first. -/
theorem claim_C6_selector_best_first_witness :
    ∃ best l1 l2,
      selectBestCandidate
        [⟨3, 3, 20, 3/4, 1/2, Method.threshold⟩,
         ⟨5, 5, 20, 3/4, 1/2, Method.gradient⟩] = some best ∧
      ([⟨3, 3, 20, 3/4, 1/2, Method.threshold⟩,
        ⟨5, 5, 20, 3/4, 1/2, Method.gradient⟩] : List Candidate) =
        l1 ++ best :: l2 ∧
      (∀ d ∈ l1, scoreCandidate d < scoreCandidate best) ∧
      (∀ d ∈ l2, scoreCandidate d ≤ scoreCandidate best) :=
  claim_C6_selector_best_first.2.2.2
    ⟨3, 3, 20, 3/4, 1/2, Method.threshold⟩
    ⟨5, 5, 20, 3/4, 1/2, Method.gradient⟩ []

/-- Claim C7: for every square-root backend, every current candidate and
every (possibly absent) previous candidate, the code's stability equals
the spec formula: average of `max(0, 1 − centerDelta/10)` and
`max(0, 1 − sizeDelta/5)`, and 0.5 when there is no previous candidate. -/
theorem claim_C7_stability_formula
    (sqrtFn : ℚ → ℚ) (current : RawResult) (previous : Option RawResult) :
    calculateStability sqrtFn current previous =
      specStability sqrtFn current previous := by
  cases previous with
  | none =>
    show (5 : ℚ)/10 = 1/2
    norm_num
  | some prev => rfl

/-- Whatever `adaptiveLoop` returns was either carried in or built from a
contour whose area lies inside `[15, 400]`. -/
lemma adaptiveLoop_area (pi : ℚ) (sqrtFn : ℚ → ℚ) (width height : ℚ) :
    ∀ (ks : List Contour) (s : ℚ) (b : Option Candidate),
      (∀ c, b = some c → ∃ k, ¬(k.area < 15 ∨ k.area > 400) ∧
        c = adaptiveCandidateOf pi sqrtFn width height k) →
      ∀ c, adaptiveLoop pi sqrtFn width height ks s b = some c →
        ∃ k, ¬(k.area < 15 ∨ k.area > 400) ∧
          c = adaptiveCandidateOf pi sqrtFn width height k := by
  intro ks
  induction ks with
  | nil =>
    intro s b hb c hc
    exact hb c hc
  | cons k ks ih =>
    intro s b hb c hc
    rw [adaptiveLoop] at hc
    split_ifs at hc with h1 h2 h3
    · exact ih s b hb c hc
    · exact ih s b hb c hc
    · refine ih _ _ ?_ c hc
      intro c2 hc2
      obtain rfl : adaptiveCandidateOf pi sqrtFn width height k = c2 :=
        Option.some.inj hc2
      exact ⟨k, h1, rfl⟩
    · exact ih s b hb c hc

/-- The reduction `reduceByConfidence` returns one of the collected entries. -/
lemma reduceByConfidence_mem :
    ∀ (rest : List ThresholdResult) (b : ThresholdResult),
      reduceByConfidence b rest ∈ b :: rest := by
  intro rest
  induction rest with
  | nil => intro b; exact List.mem_cons_self b []
  | cons c cs ih =>
    intro b
    rw [reduceByConfidence]
    rcases List.mem_cons.mp (ih (if c.confidence > b.confidence then c else b))
      with hh | hh
    · rw [hh]
      split_ifs
      · exact List.mem_cons_of_mem _ (List.mem_cons_self _ _)
      · exact List.mem_cons_self _ _
    · exact List.mem_cons_of_mem _ (List.mem_cons_of_mem _ hh)

/-- Every entry collected at one threshold has area strictly between 30
and 1000. -/
lemma collectAtThreshold_area {pi : ℚ} {sqrtFn : ℚ → ℚ} {t : ℕ}
    {contours : List Contour} {r : ThresholdResult}
    (hr : r ∈ collectAtThreshold pi sqrtFn t contours) :
    30 < r.area ∧ r.area < 1000 := by
  obtain ⟨k, hk, hfk⟩ := List.mem_filterMap.mp hr
  by_cases h1 : 30 < k.area ∧ k.area < 1000
  · by_cases h2 : k.m00 = 0
    · simp [h1, h2] at hfk
    · by_cases h3 : 4 * pi * k.area / (k.perimeter * k.perimeter) > 3/10
      · simp [h1, h2, h3] at hfk
        rw [← hfk]
        exact h1
      · simp [h1, h2, h3] at hfk
  · simp [h1] at hfk

/-- Everything in the `bestResults` accumulation of
`advancedThresholdDetection` has area strictly between 30 and 1000. -/
lemma foldr_collect_area {pi : ℚ} {sqrtFn : ℚ → ℚ}
    {contoursOf : ℕ → List Contour} :
    ∀ (ts : List ℕ) (r : ThresholdResult),
      r ∈ ts.foldr
        (fun t acc => collectAtThreshold pi sqrtFn t (contoursOf t) ++ acc) [] →
      30 < r.area ∧ r.area < 1000 := by
  intro ts
  induction ts with
  | nil => intro r hr; simp at hr
  | cons t ts ih =>
    intro r hr
    rw [List.foldr_cons] at hr
    rcases List.mem_append.mp hr with hr | hr
    · exact collectAtThreshold_area hr
    · exact ih r hr

/-- A returned result of `advancedThresholdDetection` is one of the
collected entries. -/
lemma advThresh_result_mem {pi : ℚ} {sqrtFn : ℚ → ℚ}
    {contoursOf : ℕ → List Contour} {r : ThresholdResult}
    (h : advancedThresholdDetection pi sqrtFn contoursOf = some r) :
    r ∈ ([30, 40, 50, 60, 70] : List ℕ).foldr
      (fun t acc => collectAtThreshold pi sqrtFn t (contoursOf t) ++ acc) [] := by
  simp only [advancedThresholdDetection] at h
  rcases hL : ([30, 40, 50, 60, 70] : List ℕ).foldr
      (fun t acc => collectAtThreshold pi sqrtFn t (contoursOf t) ++ acc) []
    with _ | ⟨b, rest⟩
  · rw [hL] at h
    simp at h
  · rw [hL] at h
    simp only [Option.some.injEq] at h
    rw [← h]
    exact reduceByConfidence_mem rest b

/-- Claim C8 (amended): each threshold generator only ever promotes a
connected component whose area lies inside that generator's own configured
band — `[15, 400]` for `detectPupilByAdaptiveThreshold`
(src/src/hooks/usePupilDetection.js) and the open interval `(30, 1000)`
for `advancedThresholdDetection` (src/unnamed/part_001) — no matter how
high its circularity is. -/
theorem claim_C8_area_rejection :
    (∀ (pi : ℚ) (sqrtFn : ℚ → ℚ) (width height : ℚ)
       (contours : List Contour) (c : Candidate),
       detectPupilByAdaptiveThreshold pi sqrtFn width height contours = some c →
       ∃ k, ¬(k.area < 15 ∨ k.area > 400) ∧
         c = adaptiveCandidateOf pi sqrtFn width height k) ∧
    (∀ (pi : ℚ) (sqrtFn : ℚ → ℚ) (contoursOf : ℕ → List Contour)
       (r : ThresholdResult),
       advancedThresholdDetection pi sqrtFn contoursOf = some r →
       30 < r.area ∧ r.area < 1000) := by
  constructor
  · intro pi sqrtFn width height contours c hc
    refine adaptiveLoop_area pi sqrtFn width height contours 0 none ?_ c hc
    intro c2 hc2
    cases hc2
  · intro pi sqrtFn contoursOf r h
    exact foldr_collect_area [30, 40, 50, 60, 70] r (advThresh_result_mem h)

/-- Counterexample for C8 as frozen: the claim fixes the bounds at 15 and
400 for the code's generators, but `advancedThresholdDetection` accepts a
connected component of area 500 (above 400) as its candidate. -/
theorem claim_C8_area_rejection_counterexample :
    advancedThresholdDetection (314159/100000) (fun _ => 0)
        (fun _ => [⟨500, 1, 0, 0, 40⟩]) =
      some ⟨0, 0, 0, 314159/80000, 314159/80000, 500, 30⟩ ∧
    (400 : ℚ) <
      (⟨0, 0, 0, 314159/80000, 314159/80000, 500, 30⟩ : ThresholdResult).area := by
  constructor
  · norm_num [advancedThresholdDetection, collectAtThreshold, thresholdResultOf,
      reduceByConfidence, List.filterMap]
  · norm_num

/-- Witness for C8: both generator models evaluated on concrete accepted
contours (area 100 for the adaptive generator, area 36 for the advanced
one). -/
theorem claim_C8_area_rejection_witness :
    (∃ k, ¬(k.area < 15 ∨ k.area > 400) ∧
       adaptiveCandidateOf (314159/100000) (fun _ => 0) 40 40
           ⟨100, 1, 0, 0, 40⟩ =
         adaptiveCandidateOf (314159/100000) (fun _ => 0) 40 40 k) ∧
    (30 < (thresholdResultOf (314159/100000) (fun _ => 0) 30
        ⟨36, 1, 0, 0, 20⟩).area ∧
     (thresholdResultOf (314159/100000) (fun _ => 0) 30
        ⟨36, 1, 0, 0, 20⟩).area < 1000) := by
  have h1 : detectPupilByAdaptiveThreshold (314159/100000) (fun _ => 0) 40 40
      [⟨100, 1, 0, 0, 40⟩] =
      some (adaptiveCandidateOf (314159/100000) (fun _ => 0) 40 40
        ⟨100, 1, 0, 0, 40⟩) := by
    norm_num [detectPupilByAdaptiveThreshold, adaptiveLoop, adaptiveScore]
  have h2 : advancedThresholdDetection (314159/100000) (fun _ => 0)
      (fun _ => [⟨36, 1, 0, 0, 20⟩]) =
      some (thresholdResultOf (314159/100000) (fun _ => 0) 30
        ⟨36, 1, 0, 0, 20⟩) := by
    norm_num [advancedThresholdDetection, collectAtThreshold,
      reduceByConfidence, thresholdResultOf, List.filterMap]
  exact ⟨claim_C8_area_rejection.1 _ _ _ _ _ _ h1,
         claim_C8_area_rejection.2 _ _ _ _ h2⟩

/-- The selector never returns nothing on a nonempty list. -/
lemma selectBest_cons_isSome (c : Candidate) (cs : List Candidate) :
    ∃ b, selectBestCandidate (c :: cs) = some b := by
  cases cs with
  | nil => exact ⟨c, rfl⟩
  | cons c2 cs2 => exact ⟨reduceBest c (c2 :: cs2), rfl⟩

/-- Analysis `analyzeEyeAdvanced` produces a result exactly when the input is
present and at least one generator produced a candidate. -/
lemma analyze_isSome (i : Option EyeInput) :
    (analyzeEyeAdvanced i).isSome = true ↔
      ∃ inp, i = some inp ∧ candidatesOf inp.gens ≠ [] := by
  cases i with
  | none => simp [analyzeEyeAdvanced]
  | some inp =>
    simp only [analyzeEyeAdvanced]
    rcases hc : candidatesOf inp.gens with _ | ⟨c, cs⟩
    · simp [hc]
    · obtain ⟨b, hb⟩ := selectBest_cons_isSome c cs
      simp [hc, hb]

/-- A missed analysis leaves the engine untouched and emits nothing. -/
lemma processEye_none {sqrtFn : ℚ → ℚ} {st : EngineState}
    {i : Option EyeInput} {e : Eye} (h : analyzeEyeAdvanced i = none) :
    processEye sqrtFn st i e = (st, none) := by
  simp [processEye, h]

/-- A successful analysis stores the updated state and emits the output. -/
lemma processEye_some {sqrtFn : ℚ → ℚ} {st : EngineState}
    {i : Option EyeInput} {e : Eye} {res : RawResult}
    (h : analyzeEyeAdvanced i = some res) :
    processEye sqrtFn st i e =
      (engineAfter st e res, some (eyeOutputOf sqrtFn st e res)) := by
  simp [processEye, h]

/-- Loop step on a missed eye. -/
lemma detectLoop_cons_none {sqrtFn : ℚ → ℚ} {inputs : Eye → Option EyeInput}
    {e : Eye} {rest : List Eye} {st : EngineState}
    (h : analyzeEyeAdvanced (inputs e) = none) :
    detectLoop sqrtFn inputs (e :: rest) st =
      detectLoop sqrtFn inputs rest st := by
  simp only [detectLoop, processEye_none h]

/-- Loop step on a successfully analyzed eye. -/
lemma detectLoop_cons_some {sqrtFn : ℚ → ℚ} {inputs : Eye → Option EyeInput}
    {e : Eye} {rest : List Eye} {st : EngineState} {res : RawResult}
    (h : analyzeEyeAdvanced (inputs e) = some res) :
    detectLoop sqrtFn inputs (e :: rest) st =
      ((detectLoop sqrtFn inputs rest (engineAfter st e res)).1,
       (e, eyeOutputOf sqrtFn st e res) ::
         (detectLoop sqrtFn inputs rest (engineAfter st e res)).2) := by
  simp only [detectLoop, processEye_some h]

/-- An eye has an entry in the accumulated results exactly when it is in
the processed list and its analysis succeeded. -/
lemma detectLoop_find (sqrtFn : ℚ → ℚ) (inputs : Eye → Option EyeInput) :
    ∀ (es : List Eye) (st : EngineState) (e : Eye),
      (findEye (detectLoop sqrtFn inputs es st).2 e).isSome = true ↔
        (e ∈ es ∧ (analyzeEyeAdvanced (inputs e)).isSome = true) := by
  intro es
  induction es with
  | nil => intro st e; simp [detectLoop, findEye]
  | cons e1 rest ih =>
    intro st e
    rcases h1 : analyzeEyeAdvanced (inputs e1) with _ | res
    · rw [detectLoop_cons_none h1, ih st e]
      constructor
      · rintro ⟨hmem, hsome⟩
        exact ⟨List.mem_cons_of_mem _ hmem, hsome⟩
      · rintro ⟨hmem, hsome⟩
        rcases List.mem_cons.mp hmem with rfl | hmem2
        · rw [h1] at hsome
          simp at hsome
        · exact ⟨hmem2, hsome⟩
    · rw [detectLoop_cons_some h1]
      by_cases he : e1 = e
      · subst he
        simp only [findEye, if_pos rfl]
        simp [h1]
      · simp only [findEye, if_neg he]
        rw [ih _ e]
        constructor
        · rintro ⟨hmem, hsome⟩
          exact ⟨List.mem_cons_of_mem _ hmem, hsome⟩
        · rintro ⟨hmem, hsome⟩
          rcases List.mem_cons.mp hmem with rfl | hmem2
          · exact absurd rfl he
          · exact ⟨hmem2, hsome⟩

/-- Lookup `lookupEye` through `detectPupil` agrees with `findEye` over the raw
accumulated list. -/
lemma lookupEye_detectPupil (sqrtFn : ℚ → ℚ) (st : EngineState)
    (inputs : Eye → Option EyeInput) (mode : EyeMode) (e : Eye) :
    lookupEye (detectPupil sqrtFn st inputs mode).2 e =
      findEye (detectLoop sqrtFn inputs (eyesToProcess mode) st).2 e := by
  simp only [detectPupil, lookupEye]
  rcases hres : (detectLoop sqrtFn inputs (eyesToProcess mode) st).2
    with _ | ⟨p, ps⟩
  · simp [findEye]
  · simp

/-- Claim C3: the result mapping of `detectPupil` contains an entry for an
eye exactly when that eye was requested and at least one candidate
generator produced a candidate for it this frame; missing landmarks, a
degenerate region or an empty candidate list simply leave the eye absent
(the model is a total function, so no exception can propagate). -/
theorem claim_C3_entry_iff_candidate (sqrtFn : ℚ → ℚ) (st : EngineState)
    (inputs : Eye → Option EyeInput) (mode : EyeMode) (eye : Eye) :
    (lookupEye (detectPupil sqrtFn st inputs mode).2 eye).isSome = true ↔
      (eye ∈ eyesToProcess mode ∧
        ∃ inp, inputs eye = some inp ∧ candidatesOf inp.gens ≠ []) := by
  rw [lookupEye_detectPupil,
      detectLoop_find sqrtFn inputs (eyesToProcess mode) st eye,
      analyze_isSome]

/-- Witness for C3: a fresh engine with a single starburst candidate for
each eye has a left entry under `eyeMode = both`. -/
theorem claim_C3_entry_iff_candidate_witness :
    (lookupEye (detectPupil (fun q => q) initialEngine
        (fun _ => some ⟨0, 0, ⟨some ⟨4, 5, 6, 1/2, 1/2, Method.gradient⟩,
          none, none, none⟩⟩)
        EyeMode.both).2 Eye.left).isSome = true :=
  (claim_C3_entry_iff_candidate (fun q => q) initialEngine
    (fun _ => some ⟨0, 0, ⟨some ⟨4, 5, 6, 1/2, 1/2, Method.gradient⟩,
      none, none, none⟩⟩)
    EyeMode.both Eye.left).mpr
    ⟨by simp [eyesToProcess],
     ⟨0, 0, ⟨some ⟨4, 5, 6, 1/2, 1/2, Method.gradient⟩, none, none, none⟩⟩,
     rfl, by simp [candidatesOf, tagOpt]⟩

/-- When an eye's analysis misses, no pass of the loop touches that eye's
FilterState or previous-candidate slot, and the eye gets no entry. -/
lemma detectLoop_miss_invariant {sqrtFn : ℚ → ℚ}
    {inputs : Eye → Option EyeInput} {eye : Eye}
    (h : analyzeEyeAdvanced (inputs eye) = none) :
    ∀ (es : List Eye) (st : EngineState),
      (detectLoop sqrtFn inputs es st).1.kalmanFilters eye =
        st.kalmanFilters eye ∧
      (detectLoop sqrtFn inputs es st).1.previousPupils eye =
        st.previousPupils eye ∧
      findEye (detectLoop sqrtFn inputs es st).2 eye = none := by
  intro es
  induction es with
  | nil => intro st; exact ⟨rfl, rfl, rfl⟩
  | cons e1 rest ih =>
    intro st
    rcases h1 : analyzeEyeAdvanced (inputs e1) with _ | res
    · rw [detectLoop_cons_none h1]
      exact ih st
    · have hne : e1 ≠ eye := by
        intro he
        rw [he, h] at h1
        cases h1
      rw [detectLoop_cons_some h1]
      obtain ⟨ih1, ih2, ih3⟩ := ih (engineAfter st e1 res)
      refine ⟨?_, ?_, ?_⟩
      · rw [ih1]
        simp only [engineAfter]
        rw [if_neg (Ne.symm hne)]
      · rw [ih2]
        simp only [engineAfter]
        rw [if_neg (Ne.symm hne)]
      · simp only [findEye]
        rw [if_neg hne]
        exact ih3

/-- Claim C4 (amended): a frame with no candidate for an eye in tracking
drops that eye from the output immediately (effectively N = 1; there is no
configurable miss window, no reduced-stability retention and no lost
timeout), while the eye's FilterState and previous-candidate slot are
retained unchanged, so a later detection resumes smoothing. -/
theorem claim_C4_miss_drops_immediately (sqrtFn : ℚ → ℚ) (st : EngineState)
    (inputs : Eye → Option EyeInput) (mode : EyeMode) (eye : Eye)
    (h : analyzeEyeAdvanced (inputs eye) = none) :
    lookupEye (detectPupil sqrtFn st inputs mode).2 eye = none ∧
    (detectPupil sqrtFn st inputs mode).1.kalmanFilters eye =
      st.kalmanFilters eye ∧
    (detectPupil sqrtFn st inputs mode).1.previousPupils eye =
      st.previousPupils eye := by
  obtain ⟨h1, h2, h3⟩ := detectLoop_miss_invariant h (eyesToProcess mode) st
  exact ⟨(lookupEye_detectPupil sqrtFn st inputs mode eye).trans h3, h1, h2⟩

/-- Witness for C4's amended theorem: a concrete tracking state, a missed
frame for the left eye under `eyeMode = both`. -/
theorem claim_C4_miss_drops_immediately_witness :
    lookupEye (detectPupil (fun q => q)
        { kalmanFilters := fun _ =>
            some ⟨1, 1/10, 2, 100, 100, 20, 0, 0, 0, true⟩,
          previousPupils := fun _ =>
            some { center := ⟨100, 100⟩, size := 20, confidence := 1/2,
                   circularity := 1/2, contrast := 0,
                   method := Method.threshold } }
        (fun _ => none) EyeMode.both).2 Eye.left = none :=
  (claim_C4_miss_drops_immediately (fun q => q)
    { kalmanFilters := fun _ =>
        some ⟨1, 1/10, 2, 100, 100, 20, 0, 0, 0, true⟩,
      previousPupils := fun _ =>
        some { center := ⟨100, 100⟩, size := 20, confidence := 1/2,
               circularity := 1/2, contrast := 0,
               method := Method.threshold } }
    (fun _ => none) EyeMode.both Eye.left rfl).1

/-- Counterexample for C4 as frozen: an eye in the tracking state (its
filter initialized, a previous candidate stored) loses its entry on the
very first frame with no candidate — nothing is retained or returned with
reduced stability, contradicting the claimed N-frame retention window. -/
theorem claim_C4_retention_counterexample :
    lookupEye (detectPupil (fun q => q)
        { kalmanFilters := fun _ =>
            some ⟨1, 1/10, 2, 100, 100, 20, 0, 0, 0, true⟩,
          previousPupils := fun _ =>
            some { center := ⟨100, 100⟩, size := 20, confidence := 1/2,
                   circularity := 1/2, contrast := 0,
                   method := Method.threshold } }
        (fun _ => none) EyeMode.both).2 Eye.left = none ∧
    (detectPupil (fun q => q)
        { kalmanFilters := fun _ =>
            some ⟨1, 1/10, 2, 100, 100, 20, 0, 0, 0, true⟩,
          previousPupils := fun _ =>
            some { center := ⟨100, 100⟩, size := 20, confidence := 1/2,
                   circularity := 1/2, contrast := 0,
                   method := Method.threshold } }
        (fun _ => none) EyeMode.both).1.kalmanFilters Eye.left =
      some ⟨1, 1/10, 2, 100, 100, 20, 0, 0, 0, true⟩ :=
  ⟨rfl, rfl⟩

/-- Evaluation of `detectPupil` on a single-eye mode with a miss. -/
lemma detectPupil_single_none {sqrtFn : ℚ → ℚ} {st : EngineState}
    {inputs : Eye → Option EyeInput} {mode : EyeMode} {e : Eye}
    (hmode : eyesToProcess mode = [e])
    (h : analyzeEyeAdvanced (inputs e) = none) :
    detectPupil sqrtFn st inputs mode = (st, none) := by
  simp [detectPupil, hmode, detectLoop_cons_none h, detectLoop]

/-- Evaluation of `detectPupil` on a single-eye mode with a hit. -/
lemma detectPupil_single_some {sqrtFn : ℚ → ℚ} {st : EngineState}
    {inputs : Eye → Option EyeInput} {mode : EyeMode} {e : Eye}
    {res : RawResult} (hmode : eyesToProcess mode = [e])
    (h : analyzeEyeAdvanced (inputs e) = some res) :
    detectPupil sqrtFn st inputs mode =
      (engineAfter st e res, some [(e, eyeOutputOf sqrtFn st e res)]) := by
  simp [detectPupil, hmode, detectLoop_cons_some h, detectLoop]

/-- Value of `eyesToProcess` on the left-eye mode. -/
lemma eyes_left : eyesToProcess EyeMode.left = [Eye.left] := rfl

/-- Value of `eyesToProcess` on the right-eye mode. -/
lemma eyes_right : eyesToProcess EyeMode.right = [Eye.right] := rfl

/-- Claim C9: with `eyeMode = left` the right eye is never populated and
its FilterState and previous-candidate slot are never mutated
(symmetrically for `eyeMode = right`), and the left-mode result together
with the left components of the new state depend only on the left
components of the previous state and on the left input — the right state
is not even read. -/
theorem claim_C9_eye_mode_isolation (sqrtFn : ℚ → ℚ) (st : EngineState)
    (inputs : Eye → Option EyeInput) :
    (lookupEye (detectPupil sqrtFn st inputs EyeMode.left).2 Eye.right = none ∧
     (detectPupil sqrtFn st inputs EyeMode.left).1.kalmanFilters Eye.right =
       st.kalmanFilters Eye.right ∧
     (detectPupil sqrtFn st inputs EyeMode.left).1.previousPupils Eye.right =
       st.previousPupils Eye.right) ∧
    (lookupEye (detectPupil sqrtFn st inputs EyeMode.right).2 Eye.left = none ∧
     (detectPupil sqrtFn st inputs EyeMode.right).1.kalmanFilters Eye.left =
       st.kalmanFilters Eye.left ∧
     (detectPupil sqrtFn st inputs EyeMode.right).1.previousPupils Eye.left =
       st.previousPupils Eye.left) ∧
    (∀ (st2 : EngineState) (inputs2 : Eye → Option EyeInput),
      st2.kalmanFilters Eye.left = st.kalmanFilters Eye.left →
      st2.previousPupils Eye.left = st.previousPupils Eye.left →
      inputs2 Eye.left = inputs Eye.left →
      (detectPupil sqrtFn st2 inputs2 EyeMode.left).2 =
        (detectPupil sqrtFn st inputs EyeMode.left).2 ∧
      (detectPupil sqrtFn st2 inputs2 EyeMode.left).1.kalmanFilters Eye.left =
        (detectPupil sqrtFn st inputs EyeMode.left).1.kalmanFilters Eye.left ∧
      (detectPupil sqrtFn st2 inputs2 EyeMode.left).1.previousPupils Eye.left =
        (detectPupil sqrtFn st inputs EyeMode.left).1.previousPupils
          Eye.left) := by
  refine ⟨?_, ?_, ?_⟩
  · rcases h : analyzeEyeAdvanced (inputs Eye.left) with _ | res
    · rw [detectPupil_single_none eyes_left h]
      exact ⟨rfl, rfl, rfl⟩
    · rw [detectPupil_single_some eyes_left h]
      refine ⟨by simp [lookupEye, findEye], ?_, ?_⟩
      · simp [engineAfter]
      · simp [engineAfter]
  · rcases h : analyzeEyeAdvanced (inputs Eye.right) with _ | res
    · rw [detectPupil_single_none eyes_right h]
      exact ⟨rfl, rfl, rfl⟩
    · rw [detectPupil_single_some eyes_right h]
      refine ⟨by simp [lookupEye, findEye], ?_, ?_⟩
      · simp [engineAfter]
      · simp [engineAfter]
  · intro st2 inputs2 hkf hpp hin
    have han : analyzeEyeAdvanced (inputs2 Eye.left) =
        analyzeEyeAdvanced (inputs Eye.left) := by rw [hin]
    rcases h : analyzeEyeAdvanced (inputs Eye.left) with _ | res
    · rw [detectPupil_single_none eyes_left h,
          detectPupil_single_none eyes_left (han.trans h)]
      exact ⟨rfl, hkf, hpp⟩
    · have h2 : analyzeEyeAdvanced (inputs2 Eye.left) = some res :=
        han.trans h
      have hf : filterFor st2 Eye.left = filterFor st Eye.left := by
        simp only [filterFor]
        rw [hkf]
      have hout : eyeOutputOf sqrtFn st2 Eye.left res =
          eyeOutputOf sqrtFn st Eye.left res := by
        simp only [eyeOutputOf]
        rw [hf, hpp]
      rw [detectPupil_single_some eyes_left h, detectPupil_single_some eyes_left h2]
      refine ⟨by rw [hout], ?_, ?_⟩
      · simp [engineAfter, hf]
      · simp [engineAfter]

/-- Witness for C9: concrete engine states with identical left components,
evaluated under `eyeMode = left`. -/
theorem claim_C9_eye_mode_isolation_witness :
    lookupEye (detectPupil (fun q => q) initialEngine (fun _ => none)
      EyeMode.left).2 Eye.right = none ∧
    (detectPupil (fun q => q) initialEngine (fun _ => none)
        EyeMode.left).2 =
      (detectPupil (fun q => q) initialEngine (fun _ => none)
        EyeMode.left).2 :=
  ⟨(claim_C9_eye_mode_isolation (fun q => q) initialEngine
      (fun _ => none)).1.1,
   ((claim_C9_eye_mode_isolation (fun q => q) initialEngine
      (fun _ => none)).2.2 initialEngine (fun _ => none) rfl rfl rfl).1⟩

/-- Claim C5: a frame with no candidate for an eye leaves that eye's
FilterState (and previous candidate) exactly as it was; the reset
operation (filter re-initialization on camera stop) clears all
FilterState; after a reset the next successful detection emits the raw
measurement unchanged (smoothing restarts from it), while without a reset
a successful detection continues from the retained prior FilterState `f`
via `AdvancedKalmanFilter.update f`. -/
theorem claim_C5_filter_retention_and_reset :
    (∀ e : Eye, resetEngine.kalmanFilters e = none ∧
      resetEngine.previousPupils e = none) ∧
    (∀ (sqrtFn : ℚ → ℚ) (st : EngineState) (inputs : Eye → Option EyeInput)
       (mode : EyeMode) (eye : Eye),
       analyzeEyeAdvanced (inputs eye) = none →
       (detectPupil sqrtFn st inputs mode).1.kalmanFilters eye =
         st.kalmanFilters eye ∧
       (detectPupil sqrtFn st inputs mode).1.previousPupils eye =
         st.previousPupils eye) ∧
    (∀ (sqrtFn : ℚ → ℚ) (st : EngineState) (i : Option EyeInput) (eye : Eye)
       (res : RawResult),
       analyzeEyeAdvanced i = some res →
       st.kalmanFilters eye = none →
       ∃ out, (processEye sqrtFn st i eye).2 = some out ∧
         out.center = res.center ∧ out.size = res.size) ∧
    (∀ (sqrtFn : ℚ → ℚ) (st : EngineState) (i : Option EyeInput) (eye : Eye)
       (res : RawResult) (f : AdvState),
       analyzeEyeAdvanced i = some res →
       st.kalmanFilters eye = some f →
       (processEye sqrtFn st i eye).1.kalmanFilters eye =
         some (AdvancedKalmanFilter.update f
           ⟨res.center.x, res.center.y, res.size⟩).2 ∧
       ∃ out, (processEye sqrtFn st i eye).2 = some out ∧
         out.center = ⟨(AdvancedKalmanFilter.update f
             ⟨res.center.x, res.center.y, res.size⟩).1.x,
           (AdvancedKalmanFilter.update f
             ⟨res.center.x, res.center.y, res.size⟩).1.y⟩ ∧
         out.size = (AdvancedKalmanFilter.update f
           ⟨res.center.x, res.center.y, res.size⟩).1.size) := by
  refine ⟨fun e => ⟨rfl, rfl⟩, ?_, ?_, ?_⟩
  · intro sqrtFn st inputs mode eye h
    obtain ⟨h1, h2, h3⟩ := detectLoop_miss_invariant h (eyesToProcess mode) st
    exact ⟨h1, h2⟩
  · intro sqrtFn st i eye res h hkf
    rw [processEye_some h]
    refine ⟨eyeOutputOf sqrtFn st eye res, rfl, ?_, ?_⟩
    · simp [eyeOutputOf, filterFor, hkf, AdvancedKalmanFilter.update,
        AdvancedKalmanFilter.new]
    · simp [eyeOutputOf, filterFor, hkf, AdvancedKalmanFilter.update,
        AdvancedKalmanFilter.new]
  · intro sqrtFn st i eye res f h hkf
    rw [processEye_some h]
    refine ⟨?_, eyeOutputOf sqrtFn st eye res, rfl, ?_, ?_⟩
    · simp [engineAfter, filterFor, hkf]
    · simp [eyeOutputOf, filterFor, hkf]
    · simp [eyeOutputOf, filterFor, hkf]

/-- Witness for C5: after a reset, a concrete single-candidate frame makes
the emitted estimate equal the raw measurement. -/
theorem claim_C5_filter_retention_and_reset_witness :
    ∃ out, (processEye (fun q => q) resetEngine
        (some ⟨0, 0, ⟨some ⟨4, 5, 6, 1/2, 1/2, Method.gradient⟩, none, none,
          none⟩⟩) Eye.left).2 = some out ∧
      out.center = ⟨(0 : ℚ) + 4, (0 : ℚ) + 5⟩ ∧ out.size = 6 :=
  claim_C5_filter_retention_and_reset.2.2.1 (fun q => q) resetEngine
    (some ⟨0, 0, ⟨some ⟨4, 5, 6, 1/2, 1/2, Method.gradient⟩, none, none,
      none⟩⟩) Eye.left
    { center := ⟨0 + 4, 0 + 5⟩, size := 6, confidence := 1/2,
      circularity := 1/2, contrast := 0, method := Method.starburst }
    rfl rfl

end CrazyEyes
